import Mathlib

/-!
Verification of the DJMoody audio pipeline: shallow embedding of the
audio processor (beat detection, mix-point selection, crossfading, WAV
encoding, stem splitting) and the energy classifiers, with theorems
checking the natural-language specification's claims. Sample values are
modelled in exact rational arithmetic; square roots (used only where a
claim depends on them) are modelled in the reals.
-/

/-- JavaScript `Math.max(-1, Math.min(1, s))`. -/
def clampQ (q : ℚ) : ℚ := max (-1) (min 1 q)

/-- Truncation toward zero, the conversion `ToInt16` applies to the value
passed to `DataView.setInt16` (ECMA-262 converts with `ToIntegerOrInfinity`,
which truncates, before taking the value mod 2^16). -/
def truncQ (q : ℚ) : ℤ := if 0 ≤ q then ⌊q⌋ else ⌈q⌉

/-- The two bytes `DataView.setInt16 _ k true` stores (little endian,
two's complement). -/
def int16LEBytes (k : ℤ) : List ℕ :=
  [(k % 65536).toNat % 256, (k % 65536).toNat / 256]

/-- The four bytes `DataView.setUint32 _ n true` stores. -/
def u32LE (n : ℕ) : List ℕ :=
  [n % 256, n / 256 % 256, n / 65536 % 256, n / 16777216 % 256]

/-- The two bytes `DataView.setUint16 _ n true` stores. -/
def u16LE (n : ℕ) : List ℕ := [n % 256, n / 256 % 256]

/-- Read back an unsigned 16-bit little-endian value from a byte list. -/
def readU16LE (bytes : List ℕ) (off : ℕ) : ℕ :=
  bytes.getD off 0 + 256 * bytes.getD (off + 1) 0

/-- Read back an unsigned 32-bit little-endian value from a byte list. -/
def readU32LE (bytes : List ℕ) (off : ℕ) : ℕ :=
  bytes.getD off 0 + 256 * bytes.getD (off + 1) 0 +
    65536 * bytes.getD (off + 2) 0 + 16777216 * bytes.getD (off + 3) 0

/-- Read back a signed 16-bit little-endian value from a byte list. -/
def readInt16LE (bytes : List ℕ) (off : ℕ) : ℤ :=
  let u := bytes.getD off 0 + 256 * bytes.getD (off + 1) 0
  if u < 32768 then (u : ℤ) else (u : ℤ) - 65536

/-- A decoded audio buffer (the Web Audio `AudioBuffer`): per-channel
sample arrays, the frame count `len`, and the sample rate. -/
structure AudioBuffer where
  channels : List (List ℚ)
  len : ℕ
  sampleRate : ℕ

namespace AudioBuffer

def numberOfChannels (b : AudioBuffer) : ℕ := b.channels.length

/-- `AudioBuffer.duration = length / sampleRate` (seconds). -/
def duration (b : AudioBuffer) : ℚ := (b.len : ℚ) / (b.sampleRate : ℚ)

/-- `getChannelData(c)` as a list; out-of-range channels give `[]`. -/
def getData (b : AudioBuffer) (c : ℕ) : List ℚ := b.channels.getD c []

/-- A well-formed buffer: every channel array has exactly `len` samples. -/
def WF (b : AudioBuffer) : Prop := ∀ ch ∈ b.channels, ch.length = b.len

end AudioBuffer

namespace AudioProcessor

/-! ### Container encoder: `audioBufferToWav` (src/app/utils/audioProcessor.ts) -/

/-- The 44-byte RIFF/WAVE header the encoder's `DataView` writes, laid out
in offset order (`RIFF`, chunk size, `WAVE`, `fmt `, 16, PCM tag 1,
channels, sample rate, byte rate, block align, bits per sample 16,
`data`, data size). -/
def wavHeader (b : AudioBuffer) : List ℕ :=
  [82, 73, 70, 70] ++
  u32LE (36 + b.len * b.numberOfChannels * 2) ++
  [87, 65, 86, 69] ++
  [102, 109, 116, 32] ++
  u32LE 16 ++
  u16LE 1 ++
  u16LE b.numberOfChannels ++
  u32LE b.sampleRate ++
  u32LE (b.sampleRate * b.numberOfChannels * 2) ++
  u16LE (b.numberOfChannels * 2) ++
  u16LE 16 ++
  [100, 97, 116, 97] ++
  u32LE (b.len * b.numberOfChannels * 2)

/-- The two data bytes written for frame `i` of channel `c`:
`setInt16(offset, Math.max(-1, Math.min(1, sample)) * 0x7FFF, true)`.
`ToInt16` truncates the scaled value toward zero. -/
def sampleBytes (b : AudioBuffer) (i c : ℕ) : List ℕ :=
  int16LEBytes (truncQ (clampQ ((b.getData c).getD i 0) * 32767))

/-- The interleaved PCM data section (frame-major, channel-minor). -/
def wavData (b : AudioBuffer) : List ℕ :=
  (List.range b.len).flatMap fun i =>
    (List.range b.numberOfChannels).flatMap fun c => sampleBytes b i c

/-- `audioBufferToWav`: 44-byte header followed by interleaved 16-bit PCM. -/
def audioBufferToWav (b : AudioBuffer) : List ℕ := wavHeader b ++ wavData b

theorem wavHeader_length (b : AudioBuffer) : (wavHeader b).length = 44 := by
  simp [wavHeader, u32LE, u16LE]

theorem flatMap_range_length (f : ℕ → List ℕ) (L : ℕ)
    (hL : ∀ j, (f j).length = L) :
    ∀ n, ((List.range n).flatMap f).length = n * L := by
  intro n
  induction n with
  | zero => simp
  | succ m ih =>
    rw [List.range_succ, List.flatMap_append]
    simp [ih, hL, Nat.succ_mul]

theorem flatMap_range'_getD (f : ℕ → List ℕ) (L : ℕ)
    (hL : ∀ j, (f j).length = L) :
    ∀ (n s j δ : ℕ), j < n → δ < L →
      ((List.range' s n).flatMap f).getD (j * L + δ) 0 = (f (s + j)).getD δ 0 := by
  intro n
  induction n with
  | zero => intro s j δ hj; omega
  | succ m ih =>
    intro s j δ hj hδ
    rw [List.range'_succ, List.flatMap_cons]
    cases j with
    | zero =>
      rw [List.getD_append _ _ _ _ (by simpa [hL s] using hδ)]
      simp
    | succ j =>
      have hlen : (f s).length ≤ (j + 1) * L + δ := by
        rw [hL s]; nlinarith
      rw [List.getD_append_right _ _ _ _ hlen, hL s]
      have harith : (j + 1) * L + δ - L = j * L + δ := by
        have : (j + 1) * L = j * L + L := by ring
        omega
      rw [harith, ih (s + 1) j δ (by omega) hδ,
        (by omega : s + 1 + j = s + (j + 1))]

theorem flatMap_range_getD (f : ℕ → List ℕ) (L : ℕ)
    (hL : ∀ j, (f j).length = L) (n j δ : ℕ) (hj : j < n) (hδ : δ < L) :
    ((List.range n).flatMap f).getD (j * L + δ) 0 = (f j).getD δ 0 := by
  have := flatMap_range'_getD f L hL n 0 j δ hj hδ
  simpa [List.range_eq_range'] using this

theorem sampleBytes_length (b : AudioBuffer) (i c : ℕ) :
    (sampleBytes b i c).length = 2 := rfl

theorem wavData_length (b : AudioBuffer) :
    (wavData b).length = b.len * b.numberOfChannels * 2 := by
  rw [wavData, flatMap_range_length _ (b.numberOfChannels * 2)
    (fun i => flatMap_range_length _ 2 (fun c => sampleBytes_length b i c)
      b.numberOfChannels)]
  ring

theorem wav_length (b : AudioBuffer) :
    (audioBufferToWav b).length = 44 + b.len * b.numberOfChannels * 2 := by
  rw [audioBufferToWav, List.length_append, wavHeader_length, wavData_length]

theorem wavData_getD (b : AudioBuffer) (i c δ : ℕ) (hi : i < b.len)
    (hc : c < b.numberOfChannels) (hδ : δ < 2) :
    (wavData b).getD (i * (b.numberOfChannels * 2) + (c * 2 + δ)) 0 =
      (sampleBytes b i c).getD δ 0 := by
  rw [wavData, flatMap_range_getD _ (b.numberOfChannels * 2)
    (fun j => flatMap_range_length _ 2 (fun x => sampleBytes_length b j x)
      b.numberOfChannels) b.len i (c * 2 + δ) hi (by omega),
    flatMap_range_getD _ 2 (fun x => sampleBytes_length b i x)
      b.numberOfChannels c δ hc hδ]

theorem wav_getD_data (b : AudioBuffer) (k : ℕ) :
    (audioBufferToWav b).getD (44 + k) 0 = (wavData b).getD k 0 := by
  rw [audioBufferToWav,
    List.getD_append_right _ _ _ _ (by rw [wavHeader_length]; omega),
    wavHeader_length]
  congr 1
  omega

theorem trunc_sample_lb (q : ℚ) : -32768 ≤ truncQ (clampQ q * 32767) := by
  have h1 : (-1 : ℚ) ≤ clampQ q := le_max_left _ _
  have h2 : (-32767 : ℚ) ≤ clampQ q * 32767 := by nlinarith
  rw [truncQ]
  split
  · rename_i hpos
    have : (0 : ℤ) ≤ ⌊clampQ q * 32767⌋ := Int.floor_nonneg.mpr hpos
    omega
  · have hc : (-32767 : ℤ) ≤ ⌈clampQ q * 32767⌉ := by
      rw [Int.le_ceil_iff]
      push_cast
      linarith
    omega

theorem trunc_sample_ub (q : ℚ) : truncQ (clampQ q * 32767) < 32768 := by
  have h1 : clampQ q ≤ 1 := max_le (by norm_num) (min_le_left _ _)
  have h2 : clampQ q * 32767 ≤ 32767 := by nlinarith
  rw [truncQ]
  split
  · have : (⌊clampQ q * 32767⌋ : ℤ) ≤ 32767 := by
      have := Int.floor_le_floor h2
      simpa using this
    omega
  · rename_i hneg
    push_neg at hneg
    have : (⌈clampQ q * 32767⌉ : ℤ) ≤ 0 := Int.ceil_le.mpr (by exact_mod_cast hneg.le)
    omega

theorem int16_decode (k : ℤ) (h1 : -32768 ≤ k) (h2 : k < 32768) :
    (if ((k % 65536).toNat % 256 + 256 * ((k % 65536).toNat / 256) : ℕ) < 32768
      then (((k % 65536).toNat % 256 + 256 * ((k % 65536).toNat / 256) : ℕ) : ℤ)
      else (((k % 65536).toNat % 256 + 256 * ((k % 65536).toNat / 256) : ℕ) : ℤ)
        - 65536) = k := by
  split <;> omega

theorem readInt16_sampleBytes (b : AudioBuffer) (i c : ℕ) (hi : i < b.len)
    (hc : c < b.numberOfChannels) :
    readInt16LE (audioBufferToWav b) (44 + (i * b.numberOfChannels + c) * 2) =
      truncQ (clampQ ((b.getData c).getD i 0) * 32767) := by
  have hidx : ∀ δ, 44 + (i * b.numberOfChannels + c) * 2 + δ =
      44 + (i * (b.numberOfChannels * 2) + (c * 2 + δ)) := by
    intro δ; ring
  rw [readInt16LE]
  have e0 : (audioBufferToWav b).getD (44 + (i * b.numberOfChannels + c) * 2) 0 =
      (sampleBytes b i c).getD 0 0 := by
    have := hidx 0
    rw [(by omega : 44 + (i * b.numberOfChannels + c) * 2 =
        44 + (i * (b.numberOfChannels * 2) + (c * 2 + 0))),
      wav_getD_data, wavData_getD b i c 0 hi hc (by omega)]
  have e1 : (audioBufferToWav b).getD (44 + (i * b.numberOfChannels + c) * 2 + 1) 0 =
      (sampleBytes b i c).getD 1 0 := by
    rw [hidx 1, wav_getD_data, wavData_getD b i c 1 hi hc (by omega)]
  rw [e0, e1]
  show (if ((sampleBytes b i c).getD 0 0 + 256 * (sampleBytes b i c).getD 1 0 : ℕ)
      < 32768 then _ else _) = _
  rw [sampleBytes, int16LEBytes]
  exact int16_decode _ (trunc_sample_lb _) (trunc_sample_ub _)

theorem u32_decode (n : ℕ) (h : n < 4294967296) :
    n % 256 + 256 * (n / 256 % 256) + 65536 * (n / 65536 % 256) +
      16777216 * (n / 16777216 % 256) = n := by
  omega

theorem u16_decode (n : ℕ) (h : n < 65536) :
    n % 256 + 256 * (n / 256 % 256) = n := by
  omega

end AudioProcessor

/-- C3: the claim states each stored 16-bit sample is
`round(clamp(s, -1, 1) * 32767)`; the encoder actually passes the scaled
value to `DataView.setInt16`, which truncates toward zero. At the
one-sample mono buffer with sample `1/65534` the scaled value is exactly
`1/2`: rounding gives 1, but the stored sample is 0. -/
theorem C3_counterexample :
    readInt16LE (AudioProcessor.audioBufferToWav ⟨[[(1 : ℚ)/65534]], 1, 8000⟩) 44 ≠
      round (clampQ ((1 : ℚ)/65534) * 32767) := by
  have h := AudioProcessor.readInt16_sampleBytes ⟨[[(1 : ℚ)/65534]], 1, 8000⟩ 0 0
    (by norm_num) (by norm_num [AudioBuffer.numberOfChannels])
  norm_num [AudioBuffer.numberOfChannels] at h
  rw [h]
  have hclamp : clampQ ((1 : ℚ)/65534) = 1/65534 := by
    rw [clampQ, min_eq_right (by norm_num), max_eq_right (by norm_num)]
  rw [AudioBuffer.getData] at h ⊢
  norm_num [hclamp, truncQ, round_eq]

/-- C3 (amended): for every buffer, the 16-bit PCM sample stored at byte
offset `44 + (i*channels + c)*2` is the little-endian encoding of
`truncate(clamp(s, -1, 1) * 32767)` — truncation toward zero (the `ToInt16`
conversion `DataView.setInt16` applies), not rounding to nearest — where `s`
is the float sample at index `i` of channel `c`. -/
theorem C3_amended (b : AudioBuffer) (i c : ℕ) (hi : i < b.len)
    (hc : c < b.numberOfChannels) :
    readInt16LE (AudioProcessor.audioBufferToWav b)
        (44 + (i * b.numberOfChannels + c) * 2) =
      truncQ (clampQ ((b.getData c).getD i 0) * 32767) :=
  AudioProcessor.readInt16_sampleBytes b i c hi hc

/-- C3 witness: the amended statement evaluated on a concrete stereo buffer. -/
theorem C3_witness :
    readInt16LE (AudioProcessor.audioBufferToWav ⟨[[(1 : ℚ)/2], [-(3 : ℚ)/4]], 1, 8000⟩)
        (44 + (0 * 2 + 1) * 2) =
      truncQ (clampQ (-(3 : ℚ)/4) * 32767) := by
  have := C3_amended ⟨[[(1 : ℚ)/2], [-(3 : ℚ)/4]], 1, 8000⟩ 0 1 (by decide)
    (by decide)
  simpa [AudioBuffer.getData] using this

/-- C4: `audioBufferToWav` on a buffer of `N` frames, `C` channels, sample
rate `R` yields exactly `44 + N*C*2` bytes starting with the RIFF tag, and
its little-endian header fields satisfy `chunkSize = 36 + dataSize`,
`byteRate = R*C*2`, `blockAlign = C*2`, `bitsPerSample = 16`,
`dataSize = N*C*2`. -/
theorem C4_wav_header (b : AudioBuffer)
    (hchunk : 36 + b.len * b.numberOfChannels * 2 < 4294967296)
    (hrate : b.sampleRate * b.numberOfChannels * 2 < 4294967296)
    (hblock : b.numberOfChannels * 2 < 65536) :
    (AudioProcessor.audioBufferToWav b).length =
        44 + b.len * b.numberOfChannels * 2 ∧
      (AudioProcessor.audioBufferToWav b).take 4 = [82, 73, 70, 70] ∧
      readU32LE (AudioProcessor.audioBufferToWav b) 4 =
        36 + b.len * b.numberOfChannels * 2 ∧
      readU32LE (AudioProcessor.audioBufferToWav b) 28 =
        b.sampleRate * b.numberOfChannels * 2 ∧
      readU16LE (AudioProcessor.audioBufferToWav b) 32 =
        b.numberOfChannels * 2 ∧
      readU16LE (AudioProcessor.audioBufferToWav b) 34 = 16 ∧
      readU32LE (AudioProcessor.audioBufferToWav b) 40 =
        b.len * b.numberOfChannels * 2 := by
  refine ⟨AudioProcessor.wav_length b, rfl, ?_, ?_, ?_, ?_, ?_⟩ <;>
    simp only [AudioProcessor.audioBufferToWav, AudioProcessor.wavHeader,
      u32LE, u16LE, readU32LE, readU16LE, List.cons_append, List.nil_append,
      List.getD_cons_zero, List.getD_cons_succ] <;>
    omega

/-- C4 witness: the header properties evaluated on a concrete mono buffer. -/
theorem C4_witness :
    (AudioProcessor.audioBufferToWav ⟨[[(0 : ℚ), 1]], 2, 44100⟩).length =
        44 + 2 * 1 * 2 ∧
      readU32LE (AudioProcessor.audioBufferToWav ⟨[[(0 : ℚ), 1]], 2, 44100⟩) 28 =
        44100 * 1 * 2 := by
  have := C4_wav_header ⟨[[(0 : ℚ), 1]], 2, 44100⟩ (by decide) (by decide) (by decide)
  exact ⟨this.1, this.2.2.2.1⟩

/-- A candidate mix point: time in seconds, local RMS energy, score. -/
structure MixPoint where
  time : ℚ
  energy : ℝ
  score : ℝ

theorem map_range_getD {α : Type} (f : ℕ → α) (n j : ℕ) (hj : j < n) (d : α) :
    ((List.range n).map f).getD j d = f j := by
  rw [List.getD_eq_getElem _ _ (by simpa using hj)]
  simp

namespace AudioProcessor

/-! ### Crossfader: `createMix` (src/app/utils/audioProcessor.ts), basic
linear-crossfade variant -/

/-- The fixed output length: `Math.floor(20 * sampleRate)` samples. -/
def mixSamples (rate : ℕ) : ℕ := 20 * rate

/-- A read of `data[idx]` guarded by `idx < data.length`; out-of-range
reads contribute a zero sample. -/
def srcSample (data : List ℚ) (idx : ℕ) : ℚ :=
  if idx < data.length then data.getD idx 0 else 0

/-- The output sample at channel `ch`, index `i`: a linear crossfade
`(sample1 * (1 - progress) + sample2 * progress) * 0.8`. -/
def mixSampleAt (b1 b2 : AudioBuffer) (s1 s2 M ch i : ℕ) : ℚ :=
  let data1 := b1.channels.getD (min ch (b1.numberOfChannels - 1)) []
  let data2 := b2.channels.getD (min ch (b2.numberOfChannels - 1)) []
  (srcSample data1 (s1 + i) * (1 - (i : ℚ) / (M : ℚ)) +
    srcSample data2 (s2 + i) * ((i : ℚ) / (M : ℚ))) * 0.8

/-- `createMix`: a 20-second output buffer at track 1's sample rate with
`max` of the two channel counts, crossfading from `mixPoint1` of track 1
into `mixPoint2` of track 2. (Negative mix-point times would make the JS
code read `undefined`; the model reads from sample `⌊time * rate⌋.toNat`,
which agrees with the code for the nonnegative times it is called with.) -/
def createMix (b1 b2 : AudioBuffer) (mp1 mp2 : MixPoint) : AudioBuffer :=
  let rate := b1.sampleRate
  let M := mixSamples rate
  let C := max b1.numberOfChannels b2.numberOfChannels
  let s1 := (⌊mp1.time * (rate : ℚ)⌋).toNat
  let s2 := (⌊mp2.time * (rate : ℚ)⌋).toNat
  { channels := (List.range C).map fun ch =>
      (List.range M).map fun i => mixSampleAt b1 b2 s1 s2 M ch i
    len := M
    sampleRate := rate }

/-! ### Stem splitter: `extractVocals` / `extractBeats` (part_001) -/

/-- The mid (center) signal `(left + right) / 2` at sample `i`. -/
def centerAt (b : AudioBuffer) (i : ℕ) : ℚ :=
  ((b.getData 0).getD i 0 + (b.getData 1).getD i 0) / 2

/-- `extractVocals`: mono input is returned unchanged; otherwise every
channel gets `center * 0.8`. -/
def extractVocals (b : AudioBuffer) : AudioBuffer :=
  if b.numberOfChannels < 2 then b
  else
    { channels := (List.range b.numberOfChannels).map fun _ =>
        (List.range b.len).map fun i => centerAt b i * 0.8
      len := b.len
      sampleRate := b.sampleRate }

/-- `extractBeats`: mono input is returned unchanged; otherwise each
channel gets `original - center * 0.8`. -/
def extractBeats (b : AudioBuffer) : AudioBuffer :=
  if b.numberOfChannels < 2 then b
  else
    { channels := (List.range b.numberOfChannels).map fun ch =>
        (List.range b.len).map fun i => (b.getData ch).getD i 0 - centerAt b i * 0.8
      len := b.len
      sampleRate := b.sampleRate }

end AudioProcessor

/-- C5: for every pair of input buffers and mix points, the mixed buffer
has exactly `20 * sampleRate` samples in each of its channels (and as its
frame count), and its channel count is the maximum of the two inputs'
channel counts. -/
theorem C5_mix_shape (b1 b2 : AudioBuffer) (mp1 mp2 : MixPoint)
    (_hc1 : 0 < b1.numberOfChannels) (_hc2 : 0 < b2.numberOfChannels) :
    (AudioProcessor.createMix b1 b2 mp1 mp2).len = 20 * b1.sampleRate ∧
      (AudioProcessor.createMix b1 b2 mp1 mp2).numberOfChannels =
        max b1.numberOfChannels b2.numberOfChannels ∧
      ∀ ch ∈ (AudioProcessor.createMix b1 b2 mp1 mp2).channels,
        ch.length = 20 * b1.sampleRate := by
  refine ⟨rfl, by simp [AudioProcessor.createMix, AudioBuffer.numberOfChannels], ?_⟩
  intro ch hch
  simp only [AudioProcessor.createMix, List.mem_map] at hch
  obtain ⟨j, -, rfl⟩ := hch
  simp [AudioProcessor.mixSamples]

/-- C5 witness: concrete mono and stereo inputs give a 2-channel,
`20 * 10`-sample mix. -/
theorem C5_witness :
    (AudioProcessor.createMix ⟨[[(1 : ℚ)]], 1, 10⟩ ⟨[[(0 : ℚ)], [1]], 1, 10⟩
        ⟨0, 0.5, 0.5⟩ ⟨0, 0.5, 0.5⟩).len = 20 * 10 ∧
      (AudioProcessor.createMix ⟨[[(1 : ℚ)]], 1, 10⟩ ⟨[[(0 : ℚ)], [1]], 1, 10⟩
        ⟨0, 0.5, 0.5⟩ ⟨0, 0.5, 0.5⟩).numberOfChannels = max 1 2 := by
  have := C5_mix_shape ⟨[[(1 : ℚ)]], 1, 10⟩ ⟨[[(0 : ℚ)], [1]], 1, 10⟩
    ⟨0, 0.5, 0.5⟩ ⟨0, 0.5, 0.5⟩ (by decide) (by decide)
  exact ⟨this.1, this.2.1⟩

/-- C6: in basic mode, every output sample is
`(sampleA * (1 - p) + sampleB * p) * 0.8` with `p = i / totalSamples`,
where `sampleA`/`sampleB` are read at `mixPointSample + i` from the
corresponding source channel and indices at or beyond a track's length
contribute 0 (`srcSample`). -/
theorem C6_crossfade (b1 b2 : AudioBuffer) (mp1 mp2 : MixPoint) (ch i : ℕ)
    (hch : ch < max b1.numberOfChannels b2.numberOfChannels)
    (hi : i < 20 * b1.sampleRate) :
    ((AudioProcessor.createMix b1 b2 mp1 mp2).channels.getD ch []).getD i 0 =
      (AudioProcessor.srcSample
          (b1.channels.getD (min ch (b1.numberOfChannels - 1)) [])
          ((⌊mp1.time * (b1.sampleRate : ℚ)⌋).toNat + i) *
            (1 - (i : ℚ) / ((20 * b1.sampleRate : ℕ) : ℚ)) +
        AudioProcessor.srcSample
          (b2.channels.getD (min ch (b2.numberOfChannels - 1)) [])
          ((⌊mp2.time * (b1.sampleRate : ℚ)⌋).toNat + i) *
            ((i : ℚ) / ((20 * b1.sampleRate : ℕ) : ℚ))) * 0.8 := by
  rw [AudioProcessor.createMix]
  simp only
  rw [map_range_getD _ _ ch hch, map_range_getD _ _ i (by
    simpa [AudioProcessor.mixSamples] using hi)]
  rfl

/-- C6 witness: the crossfade formula evaluated at a concrete sample of a
concrete mix. -/
theorem C6_witness :
    ((AudioProcessor.createMix ⟨[[(1 : ℚ), 1]], 2, 1⟩ ⟨[[(0 : ℚ), 1]], 2, 1⟩
          ⟨0, 0.5, 0.5⟩ ⟨0, 0.5, 0.5⟩).channels.getD 0 []).getD 3 0 =
      (AudioProcessor.srcSample [(1 : ℚ), 1] 3 * (1 - (3 : ℚ) / 20) +
        AudioProcessor.srcSample [(0 : ℚ), 1] 3 * ((3 : ℚ) / 20)) * 0.8 := by
  have := C6_crossfade ⟨[[(1 : ℚ), 1]], 2, 1⟩ ⟨[[(0 : ℚ), 1]], 2, 1⟩
    ⟨0, 0.5, 0.5⟩ ⟨0, 0.5, 0.5⟩ 0 3 (by decide) (by decide)
  simpa using this

/-- C10: for a buffer with at least two channels the two stems exactly
reconstruct the input at every channel and sample index
(`center * 0.8 + (original - center * 0.8) = original`), and for mono
input both `extractVocals` and `extractBeats` return the buffer
unchanged. -/
theorem C10_stem_reconstruction (b : AudioBuffer) :
    (2 ≤ b.numberOfChannels →
      ∀ c < b.numberOfChannels, ∀ i < b.len,
        (((AudioProcessor.extractVocals b).channels.getD c []).getD i 0 +
          ((AudioProcessor.extractBeats b).channels.getD c []).getD i 0) =
          (b.getData c).getD i 0) ∧
    (b.numberOfChannels < 2 →
      AudioProcessor.extractVocals b = b ∧ AudioProcessor.extractBeats b = b) := by
  constructor
  · intro h2 c hc i hi
    rw [AudioProcessor.extractVocals, AudioProcessor.extractBeats,
      if_neg (by omega), if_neg (by omega)]
    simp only
    rw [map_range_getD _ _ c hc, map_range_getD _ _ i hi,
      map_range_getD _ _ c hc, map_range_getD _ _ i hi]
    ring
  · intro h2
    rw [AudioProcessor.extractVocals, AudioProcessor.extractBeats,
      if_pos h2, if_pos h2]
    exact ⟨rfl, rfl⟩

namespace AudioProcessor

/-! ### Beat detector: `findBeats` (src/app/utils/audioProcessor.ts)

The JS code works on RMS energies `sqrt(meanSquare)`. Every use of an
energy is a comparison (`>` against a neighbouring energy, or against
`1.5 * median`), and squaring is strictly monotone on nonnegative values,
so the model works with the squared energies throughout: `a > b` on the
RMS scale is `a² > b²`, and `a > 1.5 * median` is `a² > (9/4) * median²`.
The median's position is unchanged because sorting commutes with the
monotone map. The beat list produced is exactly the JS one. -/

/-- `Math.floor(sampleRate * 0.04)`. The float product of an audio rate
with the double nearest 0.04 floors like the exact `rate / 25`. -/
def windowSize (rate : ℕ) : ℕ := rate / 25

/-- `Math.floor(windowSize / 4)`. -/
def hopSize (rate : ℕ) : ℕ := windowSize rate / 4

/-- Fuel-driven `⌊log₂ n⌋` (0 for `n < 2`); the fuel `n` itself is always
enough since the argument at least halves each step. -/
def log2fuel : ℕ → ℕ → ℕ
  | 0, _ => 0
  | f + 1, n => if n < 2 then 0 else log2fuel f (n / 2) + 1

def floorLog2 (n : ℕ) : ℕ := log2fuel n n

/-- Round `n / 2^53` to 53 significant bits (round to nearest, ties to
even — the IEEE-754 binary64 rounding), returned as the numerator at
scale `2^53`: exact when `n < 2^53`, otherwise the low `⌊log₂ n⌋ - 52`
bits are rounded away. -/
def roundMantissa53 (n : ℕ) : ℕ :=
  if floorLog2 n ≤ 52 then n
  else
    let s := floorLog2 n - 52
    let m := n / 2 ^ s
    let r := n % 2 ^ s
    (if 2 * r > 2 ^ s then m + 1
      else if 2 * r < 2 ^ s then m
      else if m % 2 = 0 then m else m + 1) * 2 ^ s

/-- `Math.floor(sampleRate * 0.35)` in double arithmetic. The double
nearest 0.35 is `3152519739159347 / 2^53`, strictly below `7/20`; the
sample rate itself is exact (every real rate is far below `2^53`), so the
JS product is the correctly rounded `rate * 3152519739159347 / 2^53`, in
the normal range for every positive rate. Flooring that rounded product
gives `⌊0.35 * rate⌋` at most rates, but one less at the 4676 rates below
400000 (44100 among them, where this is 15434, not 15435) at which the
rounded product falls just below the exact integer `7 * rate / 20`. -/
def minBeatInterval (rate : ℕ) : ℕ :=
  roundMantissa53 (rate * 3152519739159347) / 2 ^ 53

/-- The number of iterations of `for (i = 0; i < len - ws; i += hop)`:
`⌈(len - ws) / hop⌉` (0 when `len ≤ ws`; the JS loop does not terminate
when `hop = 0`, i.e. for sample rates below 100 Hz, so the model returns
no windows there). -/
def numWindows (len ws hop : ℕ) : ℕ :=
  if hop = 0 then 0 else (len - ws + hop - 1) / hop

/-- The squared RMS of the window of `ws` samples starting at `start`. -/
def windowEnergySq (data : List ℚ) (ws start : ℕ) : ℚ :=
  ((List.range ws).map fun j => (data.getD (start + j) 0) ^ 2).sum / (ws : ℚ)

/-- The energy curve (squared RMS per window). -/
def energies (data : List ℚ) (rate : ℕ) : List ℚ :=
  (List.range (numWindows data.length (windowSize rate) (hopSize rate))).map
    fun k => windowEnergySq data (windowSize rate) (k * hopSize rate)

/-- `calculateThreshold` on the squared scale: the median is the sorted
curve's entry at `⌊length / 2⌋` and the threshold `median * 1.5` squares
to `(9/4) * medianSq`. -/
def thresholdSq (es : List ℚ) : ℚ :=
  (9 / 4) * (List.insertionSort (· ≤ ·) es).getD (es.length / 2) 0

/-- The peak test of the scan: above threshold and strictly greater than
the two neighbours on each side (squared scale). -/
def isPeak (es : List ℚ) (th : ℚ) (i : ℕ) : Prop :=
  th < es.getD i 0 ∧ es.getD (i - 1) 0 < es.getD i 0 ∧
    es.getD (i - 2) 0 < es.getD i 0 ∧ es.getD (i + 1) 0 < es.getD i 0 ∧
    es.getD (i + 2) 0 < es.getD i 0

instance (es : List ℚ) (th : ℚ) (i : ℕ) : Decidable (isPeak es th i) := by
  rw [isPeak]; infer_instance

/-- One iteration of the scan: state is `(lastBeat, beats so far)`;
a peak further than `minBeatInterval` from the last beat is appended
(`currentSample = i * hopSize`). -/
def beatStep (es : List ℚ) (th : ℚ) (hop minInt : ℕ) (st : ℤ × List ℕ)
    (i : ℕ) : ℤ × List ℕ :=
  if isPeak es th i ∧ (minInt : ℤ) < (i * hop : ℕ) - st.1
    then ((i * hop : ℕ), st.2 ++ [i * hop])
    else st

/-- The scan `for (i = 2; i < energies.length - 2; i++)` with
`lastBeat = -minBeatInterval` initially. -/
def pickBeats (es : List ℚ) (th : ℚ) (hop minInt : ℕ) : List ℕ :=
  ((List.range' 2 (es.length - 4)).foldl (beatStep es th hop minInt)
    (-(minInt : ℤ), [])).2

/-- The inter-beat intervals `beats[i+1] - beats[i]`. -/
def intervalsQ (beats : List ℕ) : List ℚ :=
  List.zipWith (fun a b => (b : ℚ) - (a : ℚ)) beats beats.tail

/-- `calculateBPM`: `60 * sampleRate / mean(intervals)`, defaulting to 120
below two beats. -/
def calculateBPMQ (beats : List ℕ) (rate : ℕ) : ℚ :=
  if beats.length < 2 then 120
  else 60 * (rate : ℚ) / ((intervalsQ beats).sum / ((intervalsQ beats).length : ℚ))

/-- `calculateConfidence`: 0.3 below four beats, otherwise
`clamp(1 - stddev(intervals)/mean(intervals), 0.3, 1)`. -/
noncomputable def calculateConfidence (beats : List ℕ) : ℝ :=
  if beats.length < 4 then 0.3
  else
    max 0.3 (min 1 (1 -
      Real.sqrt (((((intervalsQ beats).map fun x =>
          (x - (intervalsQ beats).sum / ((intervalsQ beats).length : ℚ)) ^ 2).sum /
            ((intervalsQ beats).length : ℚ) : ℚ) : ℝ)) /
        (((intervalsQ beats).sum / ((intervalsQ beats).length : ℚ) : ℚ) : ℝ)))

/-- A beat analysis: integral clamped BPM, beat sample indices,
confidence. -/
structure BeatInfo where
  bpm : ℚ
  beats : List ℕ
  confidence : ℝ

/-- `findBeats`: energy curve, adaptive threshold, peak scan, then
`bpm = Math.max(85, Math.min(175, Math.round(bpm)))` and the confidence. -/
noncomputable def findBeats (data : List ℚ) (rate : ℕ) : BeatInfo :=
  let es := energies data rate
  let bs := pickBeats es (thresholdSq es) (hopSize rate) (minBeatInterval rate)
  { bpm := ((max 85 (min 175 (round (calculateBPMQ bs rate))) : ℤ) : ℚ)
    beats := bs
    confidence := calculateConfidence bs }

theorem findBeats_beats (data : List ℚ) (rate : ℕ) :
    (findBeats data rate).beats =
      pickBeats (energies data rate) (thresholdSq (energies data rate))
        (hopSize rate) (minBeatInterval rate) := rfl

theorem findBeats_bpm (data : List ℚ) (rate : ℕ) :
    (findBeats data rate).bpm =
      ((max 85 (min 175 (round (calculateBPMQ (findBeats data rate).beats rate)))
        : ℤ) : ℚ) := rfl

theorem findBeats_confidence (data : List ℚ) (rate : ℕ) :
    (findBeats data rate).confidence =
      calculateConfidence (findBeats data rate).beats := rfl

theorem beatStep_foldl_inv (es : List ℚ) (th : ℚ) (hop minInt : ℕ) :
    ∀ (l : List ℕ) (st : ℤ × List ℕ),
      List.Chain' (fun a b => a + minInt < b) st.2 →
      (∀ x, st.2.getLast? = some x → (x : ℤ) ≤ st.1) →
      List.Chain' (fun a b => a + minInt < b)
          (l.foldl (beatStep es th hop minInt) st).2 := by
  intro l
  induction l with
  | nil => intro st h1 h2; exact h1
  | cons i t ih =>
    intro st h1 h2
    rw [List.foldl_cons]
    rcases Decidable.em (isPeak es th i ∧ (minInt : ℤ) < (i * hop : ℕ) - st.1) with
      hcond | hcond
    · rw [beatStep, if_pos hcond]
      refine ih _ ?_ ?_
      · rw [List.chain'_append]
        refine ⟨h1, List.chain'_singleton _, ?_⟩
        intro x hx y hy
        simp only [List.head?_cons, Option.mem_def, Option.some.injEq] at hy
        subst hy
        have hle := h2 x (by simpa using hx)
        have := hcond.2
        omega
      · intro x hx
        rw [List.getLast?_concat] at hx
        simp only [Option.some.injEq] at hx
        subst hx
        exact le_refl _
    · rw [beatStep, if_neg hcond]
      exact ih st h1 h2

end AudioProcessor

/-- C7: for every channel-sample array and positive sample rate, the
returned BPM is an integer in the clamp band `[85, 175]` and equals 120
when fewer than two beats were found, and the confidence lies in
`[0.3, 1]` and equals 0.3 when fewer than four beats were found. -/
theorem C7_beatinfo_bounds (data : List ℚ) (rate : ℕ) (_h : 0 < rate) :
    (∃ k : ℤ, (AudioProcessor.findBeats data rate).bpm = (k : ℚ)) ∧
      (85 : ℚ) ≤ (AudioProcessor.findBeats data rate).bpm ∧
      (AudioProcessor.findBeats data rate).bpm ≤ 175 ∧
      ((AudioProcessor.findBeats data rate).beats.length < 2 →
        (AudioProcessor.findBeats data rate).bpm = 120) ∧
      (0.3 : ℝ) ≤ (AudioProcessor.findBeats data rate).confidence ∧
      (AudioProcessor.findBeats data rate).confidence ≤ 1 ∧
      ((AudioProcessor.findBeats data rate).beats.length < 4 →
        (AudioProcessor.findBeats data rate).confidence = 0.3) := by
  rw [AudioProcessor.findBeats_bpm, AudioProcessor.findBeats_confidence]
  refine ⟨⟨_, rfl⟩, ?_, ?_, ?_, ?_, ?_, ?_⟩
  · exact_mod_cast le_max_left _ _
  · exact_mod_cast max_le (by norm_num) (min_le_left _ _)
  · intro hlt
    rw [AudioProcessor.calculateBPMQ, if_pos hlt]
    norm_num
  · rw [AudioProcessor.calculateConfidence]
    split
    · norm_num
    · exact le_max_left _ _
  · rw [AudioProcessor.calculateConfidence]
    split
    · norm_num
    · exact max_le (by norm_num) (min_le_left _ _)
  · intro hlt
    rw [AudioProcessor.calculateConfidence, if_pos hlt]

/-- C7 witness: the bounds at a concrete (empty) input and rate 44100. -/
theorem C7_witness :
    (85 : ℚ) ≤ (AudioProcessor.findBeats [] 44100).bpm ∧
      (0.3 : ℝ) ≤ (AudioProcessor.findBeats [] 44100).confidence := by
  have := C7_beatinfo_bounds [] 44100 (by norm_num)
  exact ⟨this.2.1, this.2.2.2.2.1⟩

/-- The counterexample input for the beat-spacing claim: 79 samples at
180 Hz (windows of 7 samples, hop 1). The impulse pairs at {3, 9} and
{66, 72} make windows 3 and 66 the only strict energy peaks (energy 2/7
against 1/7 beside them and a zero median), so the scan accepts beats at
samples 3 and 66 — a gap of exactly 63 = ⌊0.35 * 180⌋, which the code
admits because its float bound `Math.floor(180 * 0.35)` is 62. -/
def c8Data : List ℚ :=
  (List.range 79).map fun i => if i = 3 ∨ i = 9 ∨ i = 66 ∨ i = 72 then 1 else 0

set_option maxRecDepth 100000 in
set_option maxHeartbeats 1000000 in
/-- C8: the claim bounds consecutive beat gaps strictly by
`floor(0.35 * sampleRate)` = `7 * rate / 20` exactly; the program's bound
is the double-arithmetic `Math.floor(rate * 0.35)`, one less at 180 Hz
(62, not 63), and on `c8Data` it returns beats `[3, 66]` whose gap is
exactly 63 — not more than 63. -/
theorem C8_counterexample :
    ¬ List.Chain' (fun a b => a + 7 * 180 / 20 < b)
      (AudioProcessor.findBeats c8Data 180).beats := by
  have h : (AudioProcessor.findBeats c8Data 180).beats = [3, 66] := by
    rw [AudioProcessor.findBeats_beats]
    with_unfolding_all decide
  rw [h]
  simp only [List.chain'_cons, List.chain'_singleton, and_true]
  omega

/-- C8 (amended): the beat list is strictly increasing, and consecutive
beats are more than the code's minimum inter-beat spacing
`Math.floor(sampleRate * 0.35)` apart — which, computed in double
arithmetic, is `⌊0.35 * rate⌋` at most rates but one less at rates (such
as 44100 Hz, bound 15434) where the rounded product falls just below the
exact integer. -/
theorem C8_beats_spacing (data : List ℚ) (rate : ℕ) :
    List.Chain' (fun a b => a + AudioProcessor.minBeatInterval rate < b)
        (AudioProcessor.findBeats data rate).beats ∧
      List.Pairwise (· < ·) (AudioProcessor.findBeats data rate).beats := by
  have hchain : List.Chain'
      (fun a b => a + AudioProcessor.minBeatInterval rate < b)
      (AudioProcessor.findBeats data rate).beats := by
    rw [AudioProcessor.findBeats_beats, AudioProcessor.pickBeats]
    exact AudioProcessor.beatStep_foldl_inv _ _ _ _ _ _ List.chain'_nil
      (fun x hx => by simp at hx)
  refine ⟨hchain, ?_⟩
  have hlt : List.Chain' (· < ·) (AudioProcessor.findBeats data rate).beats :=
    hchain.imp (fun hab => by omega)
  exact List.chain'_iff_pairwise.mp hlt

namespace AudioProcessor

/-! ### Mix-point selector: `findCandidates` / `findMixPoints`
(src/app/utils/audioProcessor.ts) -/

/-- `calculateEnergy`: RMS over a 100 ms window starting at
`⌊time * rate⌋`; 0.5 when the window does not fit in channel 0. -/
noncomputable def calculateEnergyR (b : AudioBuffer) (time : ℚ) : ℝ :=
  let start := (⌊time * (b.sampleRate : ℚ)⌋).toNat
  let ws := b.sampleRate / 10
  if (b.getData 0).length ≤ start + ws then 0.5
  else Real.sqrt
    (((((List.range ws).map fun j => ((b.getData 0).getD (start + j) 0) ^ 2).sum /
      (ws : ℚ) : ℚ) : ℝ))

/-- `getPositionScore`: `1 - |normalizedTime - 0.5|` where
`normalizedTime = (time/duration - startPct) / (endPct - startPct)`. -/
def getPositionScore (time dur sp ep : ℚ) : ℚ :=
  1 - |(time / dur - sp) / (ep - sp) - 1/2|

/-- The window test `time >= duration*startPct && time <= duration*endPct`. -/
def inWindow (b : AudioBuffer) (sp ep : ℚ) (beat : ℕ) : Bool :=
  decide (b.duration * sp ≤ (beat : ℚ) / (b.sampleRate : ℚ) ∧
    (beat : ℚ) / (b.sampleRate : ℚ) ≤ b.duration * ep)

/-- The candidate built from a beat: `time = beat / sampleRate`, its local
energy, and `score = energy * positionScore`. -/
noncomputable def mkCandidate (b : AudioBuffer) (sp ep : ℚ) (beat : ℕ) : MixPoint :=
  { time := (beat : ℚ) / (b.sampleRate : ℚ)
    energy := calculateEnergyR b ((beat : ℚ) / (b.sampleRate : ℚ))
    score := calculateEnergyR b ((beat : ℚ) / (b.sampleRate : ℚ)) *
      ((getPositionScore ((beat : ℚ) / (b.sampleRate : ℚ)) b.duration sp ep : ℚ) : ℝ) }

noncomputable instance : DecidableRel fun p q : MixPoint => q.score ≤ p.score :=
  fun p q => inferInstanceAs (Decidable (q.score ≤ p.score))

/-- `findCandidates`: beats inside the percentage window, scored, sorted
by score descending, top 5. -/
noncomputable def findCandidates (bi : BeatInfo) (b : AudioBuffer) (sp ep : ℚ) :
    List MixPoint :=
  (List.insertionSort (fun p q => q.score ≤ p.score)
    ((bi.beats.filter (inWindow b sp ep)).map (mkCandidate b sp ep))).take 5

/-- One pair comparison of the selection loop:
`score = (1 - |energyA - energyB|) * scoreA * scoreB`, kept if it beats
the best so far. -/
noncomputable def pairStep (acc : ℝ × (MixPoint × MixPoint)) (p1 p2 : MixPoint) :
    ℝ × (MixPoint × MixPoint) :=
  if acc.1 < (1 - |p1.energy - p2.energy|) * p1.score * p2.score
    then ((1 - |p1.energy - p2.energy|) * p1.score * p2.score, (p1, p2))
    else acc

/-- `findMixPoints`: candidate windows 60–85 % for track A and 15–50 % for
track B; the default pair is the head candidate or the fixed fallback
(70 % / 30 % of duration, energy and score 0.5); every candidate pair is
scored and the best kept. -/
noncomputable def findMixPoints (bi1 bi2 : BeatInfo) (b1 b2 : AudioBuffer) :
    MixPoint × MixPoint :=
  let c1 := findCandidates bi1 b1 0.6 0.85
  let c2 := findCandidates bi2 b2 0.15 0.5
  (c1.foldl (fun acc p1 => c2.foldl (fun acc2 p2 => pairStep acc2 p1 p2) acc)
    (0, (c1.headD ⟨b1.duration * 0.7, 0.5, 0.5⟩,
         c2.headD ⟨b2.duration * 0.3, 0.5, 0.5⟩))).2

theorem findCandidates_window (bi : BeatInfo) (b : AudioBuffer) (sp ep : ℚ) :
    ∀ p ∈ findCandidates bi b sp ep,
      b.duration * sp ≤ p.time ∧ p.time ≤ b.duration * ep := by
  intro p hp
  rw [findCandidates] at hp
  have hp2 := List.mem_of_mem_take hp
  have hp3 := (List.perm_insertionSort (fun p q : MixPoint => q.score ≤ p.score)
    _).mem_iff.mp hp2
  obtain ⟨beat, hbeat, rfl⟩ := List.mem_map.mp hp3
  have hw := of_decide_eq_true (List.mem_filter.mp hbeat).2
  exact hw

theorem pairFold_inner_inv (P1 P2 : MixPoint → Prop) (p1 : MixPoint)
    (hp1 : P1 p1) :
    ∀ (l2 : List MixPoint) (acc : ℝ × (MixPoint × MixPoint)),
      (∀ p ∈ l2, P2 p) → P1 acc.2.1 → P2 acc.2.2 →
      P1 ((l2.foldl (fun a2 p2 => pairStep a2 p1 p2) acc).2.1) ∧
        P2 ((l2.foldl (fun a2 p2 => pairStep a2 p1 p2) acc).2.2) := by
  intro l2
  induction l2 with
  | nil => intro acc hl2 h1 h2; exact ⟨h1, h2⟩
  | cons q t ih =>
    intro acc hl2 h1 h2
    rw [List.foldl_cons]
    refine ih _ (fun p hp => hl2 p (List.mem_cons_of_mem _ hp)) ?_ ?_
    · rw [pairStep]
      split
      · exact hp1
      · exact h1
    · rw [pairStep]
      split
      · exact hl2 q (List.mem_cons_self _ _)
      · exact h2

theorem pairFold_inv (P1 P2 : MixPoint → Prop) :
    ∀ (l1 l2 : List MixPoint) (acc : ℝ × (MixPoint × MixPoint)),
      (∀ p ∈ l1, P1 p) → (∀ p ∈ l2, P2 p) → P1 acc.2.1 → P2 acc.2.2 →
      P1 ((l1.foldl (fun acc p1 => l2.foldl (fun a2 p2 => pairStep a2 p1 p2) acc)
          acc).2.1) ∧
        P2 ((l1.foldl (fun acc p1 => l2.foldl (fun a2 p2 => pairStep a2 p1 p2) acc)
          acc).2.2) := by
  intro l1
  induction l1 with
  | nil => intro l2 acc h1 h2 ha hb; exact ⟨ha, hb⟩
  | cons q t ih =>
    intro l2 acc h1 h2 ha hb
    rw [List.foldl_cons]
    have hstep := pairFold_inner_inv P1 P2 q (h1 q (List.mem_cons_self _ _)) l2
      acc h2 ha hb
    exact ih l2 _ (fun p hp => h1 p (List.mem_cons_of_mem _ hp)) h2
      hstep.1 hstep.2

theorem headD_prop (P : MixPoint → Prop) (l : List MixPoint) (fb : MixPoint)
    (hl : ∀ p ∈ l, P p) (hfb : P fb) : P (l.headD fb) := by
  cases l with
  | nil => exact hfb
  | cons h t => exact hl h (List.mem_cons_self _ _)

theorem foldl_const {α β : Type} : ∀ (l : List β) (a : α),
    l.foldl (fun x _ => x) a = a := by
  intro l
  induction l with
  | nil => intro a; rfl
  | cons b t ih => intro a; rw [List.foldl_cons]; exact ih a

end AudioProcessor

/-- C9: the selected mix points stay inside the configured percentage
windows — `point1.time ∈ [0.6, 0.85] * duration1` and
`point2.time ∈ [0.15, 0.5] * duration2` — and an empty candidate list
yields the fixed fallback point (70 % of duration for A, 30 % for B, with
energy and score 0.5). -/
theorem C9_mixpoint_windows (bi1 bi2 : AudioProcessor.BeatInfo)
    (b1 b2 : AudioBuffer) :
    (b1.duration * 0.6 ≤ (AudioProcessor.findMixPoints bi1 bi2 b1 b2).1.time ∧
      (AudioProcessor.findMixPoints bi1 bi2 b1 b2).1.time ≤ b1.duration * 0.85) ∧
    (b2.duration * 0.15 ≤ (AudioProcessor.findMixPoints bi1 bi2 b1 b2).2.time ∧
      (AudioProcessor.findMixPoints bi1 bi2 b1 b2).2.time ≤ b2.duration * 0.5) ∧
    (AudioProcessor.findCandidates bi1 b1 0.6 0.85 = [] →
      (AudioProcessor.findMixPoints bi1 bi2 b1 b2).1 =
        ⟨b1.duration * 0.7, 0.5, 0.5⟩) ∧
    (AudioProcessor.findCandidates bi2 b2 0.15 0.5 = [] →
      (AudioProcessor.findMixPoints bi1 bi2 b1 b2).2 =
        ⟨b2.duration * 0.3, 0.5, 0.5⟩) := by
  have hd1 : (0 : ℚ) ≤ b1.duration :=
    div_nonneg (by positivity) (by positivity)
  have hd2 : (0 : ℚ) ≤ b2.duration :=
    div_nonneg (by positivity) (by positivity)
  have hfb1 : b1.duration * 0.6 ≤ b1.duration * 0.7 ∧
      b1.duration * 0.7 ≤ b1.duration * 0.85 := by constructor <;> nlinarith
  have hfb2 : b2.duration * 0.15 ≤ b2.duration * 0.3 ∧
      b2.duration * 0.3 ≤ b2.duration * 0.5 := by constructor <;> nlinarith
  have hmain := AudioProcessor.pairFold_inv
    (fun p => b1.duration * 0.6 ≤ p.time ∧ p.time ≤ b1.duration * 0.85)
    (fun p => b2.duration * 0.15 ≤ p.time ∧ p.time ≤ b2.duration * 0.5)
    (AudioProcessor.findCandidates bi1 b1 0.6 0.85)
    (AudioProcessor.findCandidates bi2 b2 0.15 0.5)
    (0, ((AudioProcessor.findCandidates bi1 b1 0.6 0.85).headD
        ⟨b1.duration * 0.7, 0.5, 0.5⟩,
      (AudioProcessor.findCandidates bi2 b2 0.15 0.5).headD
        ⟨b2.duration * 0.3, 0.5, 0.5⟩))
    (AudioProcessor.findCandidates_window bi1 b1 0.6 0.85)
    (AudioProcessor.findCandidates_window bi2 b2 0.15 0.5)
    (AudioProcessor.headD_prop _ _ _
      (AudioProcessor.findCandidates_window bi1 b1 0.6 0.85) hfb1)
    (AudioProcessor.headD_prop _ _ _
      (AudioProcessor.findCandidates_window bi2 b2 0.15 0.5) hfb2)
  refine ⟨hmain.1, hmain.2, ?_, ?_⟩
  · intro hc1
    rw [AudioProcessor.findMixPoints]
    simp only [hc1, List.foldl_nil, List.headD_nil]
  · intro hc2
    rw [AudioProcessor.findMixPoints]
    simp only [hc2, List.foldl_nil, List.headD_nil,
      AudioProcessor.foldl_const]

/-- C9 witness: with no beats both candidate lists are empty and the
fallback points land inside the windows of two concrete buffers. -/
theorem C9_witness :
    (AudioProcessor.findMixPoints ⟨120, [], 0.3⟩ ⟨120, [], 0.3⟩
        ⟨[[(0 : ℚ)]], 1, 10⟩ ⟨[[(0 : ℚ)]], 1, 10⟩).1.time ≤
      (AudioBuffer.mk [[(0 : ℚ)]] 1 10).duration * 0.85 := by
  exact (C9_mixpoint_windows ⟨120, [], 0.3⟩ ⟨120, [], 0.3⟩
    ⟨[[(0 : ℚ)]], 1, 10⟩ ⟨[[(0 : ℚ)]], 1, 10⟩).1.2

namespace EnergyDetector5

/-! ### Energy classifier, five-category variant
(src/app/utils/energyDetector.ts): rule-based scoring of a 25-slot
feature vector. Only slots 0 (rms), 1 (spectral centroid), 2 (zcr),
5 (tempo), 6 (peak amplitude) and 9 (beat strength) are scored. -/

structure EnergyAnalysis where
  energy_level : String
  confidence : ℚ
  class_id : ℕ
  probabilities : List ℚ
  deriving DecidableEq

def energyLevels : List String :=
  ["Chill Vibe", "Lounge", "Groove", "Party", "Club Rager"]

/-- The five raw category scores, in class-id order. -/
def scoresList (f : List ℚ) : List ℚ :=
  let rms := f.getD 0 0
  let spectralCentroid := f.getD 1 0
  let zcr := f.getD 2 0
  let tempo := f.getD 5 0
  let peakAmplitude := f.getD 6 0
  let beatStrength := f.getD 9 0
  [(1 - min (tempo / 180) 1) * 0.3 + (1 - min (rms / 0.5) 1) * 0.3 +
      (1 - min (spectralCentroid / 4000) 1) * 0.4,
    (1 - |tempo - 90| / 90) * 0.4 + (1 - |rms - 0.3| / 0.3) * 0.3 +
      (1 - min (zcr / 0.1) 1) * 0.3,
    (1 - |tempo - 120| / 120) * 0.4 + (1 - |rms - 0.4| / 0.4) * 0.3 +
      min (beatStrength / 0.5) 1 * 0.3,
    min (tempo / 180) 1 * 0.4 + min (rms / 0.6) 1 * 0.3 +
      min (spectralCentroid / 4000) 1 * 0.3,
    min (tempo / 180) 1 * 0.5 + min (rms / 0.7) 1 * 0.3 +
      min (peakAmplitude / 0.8) 1 * 0.2]

/-- One step of the argmax loop `if (scores[i] > bestScore)`. -/
def bestStep (ss : List ℚ) (st : ℕ × ℚ) (i : ℕ) : ℕ × ℚ :=
  if st.2 < ss.getD i 0 then (i, ss.getD i 0) else st

/-- The loop `for (i = 1; i < 5; i++)` starting from `(0, scores[0])`. -/
def bestOf (ss : List ℚ) : ℕ × ℚ := [1, 2, 3, 4].foldl (bestStep ss) (0, ss.getD 0 0)

def totalScore (f : List ℚ) : ℚ := (scoresList f).sum

/-- `predictEnergyLevel`: probabilities are the scores normalized by their
sum; the confidence field is the raw best score. -/
def predictEnergyLevel (f : List ℚ) : EnergyAnalysis :=
  { energy_level := energyLevels.getD (bestOf (scoresList f)).1 ""
    confidence := (bestOf (scoresList f)).2
    class_id := (bestOf (scoresList f)).1
    probabilities := (scoresList f).map fun s => s / (scoresList f).sum }

/-- The maximum of a list of probabilities (`Math.max(...)`). -/
def maxProbability (p : List ℚ) : ℚ := p.foldl max (p.headD 0)

theorem sum_map_div (l : List ℚ) (t : ℚ) : (l.map fun s => s / t).sum = l.sum / t := by
  induction l with
  | nil => simp
  | cons a l ih => simp [ih, add_div]

theorem bestFold_snd_ge_init (ss : List ℚ) :
    ∀ (l : List ℕ) (st : ℕ × ℚ), st.2 ≤ (l.foldl (bestStep ss) st).2 := by
  intro l
  induction l with
  | nil => intro st; exact le_refl _
  | cons i t ih =>
    intro st
    rw [List.foldl_cons]
    refine le_trans ?_ (ih (bestStep ss st i))
    rw [bestStep]
    split
    · exact le_of_lt (by assumption)
    · exact le_refl _

theorem bestFold_snd_ge_mem (ss : List ℚ) :
    ∀ (l : List ℕ) (st : ℕ × ℚ) (i : ℕ), i ∈ l →
      ss.getD i 0 ≤ (l.foldl (bestStep ss) st).2 := by
  intro l
  induction l with
  | nil => intro st i hi; simp at hi
  | cons j t ih =>
    intro st i hi
    rw [List.foldl_cons]
    rcases List.mem_cons.mp hi with rfl | hmem
    · refine le_trans ?_ (bestFold_snd_ge_init ss t (bestStep ss st i))
      rw [bestStep]
      split
      · exact le_refl _
      · exact le_of_not_lt (by assumption)
    · exact ih _ i hmem

theorem bestFold_snd_mem (ss : List ℚ) :
    ∀ (l : List ℕ) (st : ℕ × ℚ),
      (l.foldl (bestStep ss) st).2 = st.2 ∨
        ∃ i ∈ l, (l.foldl (bestStep ss) st).2 = ss.getD i 0 := by
  intro l
  induction l with
  | nil => intro st; exact Or.inl rfl
  | cons j t ih =>
    intro st
    rw [List.foldl_cons]
    rcases ih (bestStep ss st j) with h | ⟨i, hi, h⟩
    · rw [h, bestStep]
      split
      · exact Or.inr ⟨j, List.mem_cons_self _ _, rfl⟩
      · exact Or.inl rfl
    · exact Or.inr ⟨i, List.mem_cons_of_mem _ hi, h⟩

theorem scoresList_length (f : List ℚ) : (scoresList f).length = 5 := rfl

theorem getD_mem_of_lt (ss : List ℚ) (i : ℕ) (hi : i < ss.length) :
    ss.getD i 0 ∈ ss := by
  rw [List.getD_eq_getElem _ _ hi]
  exact List.getElem_mem _

end EnergyDetector5

/-- C1: the claim asserts the classifier's confidence equals the maximum
normalized probability; the code sets `confidence: bestScore`, the raw
winning score before normalization. At the all-zero feature vector the
scores are `[1, 0.3, 0, 0, 0]`: the confidence is 1 while the largest
probability is `1 / 1.3 = 10/13`. -/
theorem C1_counterexample :
    (EnergyDetector5.predictEnergyLevel (List.replicate 25 (0 : ℚ))).confidence ≠
      EnergyDetector5.maxProbability
        (EnergyDetector5.predictEnergyLevel (List.replicate 25 (0 : ℚ))).probabilities := by
  have hs : EnergyDetector5.scoresList (List.replicate 25 (0 : ℚ)) =
      [1, 3/10, 0, 0, 0] := by
    norm_num [EnergyDetector5.scoresList, min_def, abs]
  norm_num [EnergyDetector5.predictEnergyLevel, hs, EnergyDetector5.bestOf,
    EnergyDetector5.bestStep, EnergyDetector5.maxProbability, max_def]

/-- C1 (amended): for every feature vector whose five raw category scores
have a nonzero sum, the probabilities (scores normalized by that sum) sum
to exactly 1; the confidence field equals the winning category's RAW score
— the maximum of the five raw scores — not the maximum normalized
probability. -/
theorem C1_amended (f : List ℚ) (h : EnergyDetector5.totalScore f ≠ 0) :
    (EnergyDetector5.predictEnergyLevel f).probabilities.sum = 1 ∧
      (EnergyDetector5.predictEnergyLevel f).confidence ∈
        EnergyDetector5.scoresList f ∧
      ∀ s ∈ EnergyDetector5.scoresList f,
        s ≤ (EnergyDetector5.predictEnergyLevel f).confidence := by
  refine ⟨?_, ?_, ?_⟩
  · show ((EnergyDetector5.scoresList f).map
      fun s => s / (EnergyDetector5.scoresList f).sum).sum = 1
    rw [EnergyDetector5.sum_map_div]
    exact div_self h
  · show (EnergyDetector5.bestOf (EnergyDetector5.scoresList f)).2 ∈ _
    rcases EnergyDetector5.bestFold_snd_mem (EnergyDetector5.scoresList f)
      [1, 2, 3, 4] (0, (EnergyDetector5.scoresList f).getD 0 0) with h0 | ⟨i, hi, hieq⟩
    · rw [EnergyDetector5.bestOf, h0]
      exact EnergyDetector5.getD_mem_of_lt _ 0
        (by rw [EnergyDetector5.scoresList_length]; omega)
    · rw [EnergyDetector5.bestOf, hieq]
      have hi5 : i < 5 := by fin_cases hi <;> omega
      exact EnergyDetector5.getD_mem_of_lt _ i
        (by rw [EnergyDetector5.scoresList_length]; omega)
  · intro s hs
    show s ≤ (EnergyDetector5.bestOf (EnergyDetector5.scoresList f)).2
    obtain ⟨i, hilt, hieq⟩ := List.mem_iff_getElem.mp hs
    have hgd : (EnergyDetector5.scoresList f).getD i 0 = s := by
      rw [List.getD_eq_getElem _ _ hilt, hieq]
    rw [← hgd, EnergyDetector5.bestOf]
    have hi5 : i < 5 := by
      rw [EnergyDetector5.scoresList_length] at hilt; omega
    interval_cases i
    · exact EnergyDetector5.bestFold_snd_ge_init _ _ _
    · exact EnergyDetector5.bestFold_snd_ge_mem _ _ _ 1 (by norm_num)
    · exact EnergyDetector5.bestFold_snd_ge_mem _ _ _ 2 (by norm_num)
    · exact EnergyDetector5.bestFold_snd_ge_mem _ _ _ 3 (by norm_num)
    · exact EnergyDetector5.bestFold_snd_ge_mem _ _ _ 4 (by norm_num)

namespace EnergyDetector3

/-! ### Energy classifier, three-category variant with input validation
(the `analyzeEnergy` that wraps its body in try/catch and returns a
neutral fallback on invalid input). -/

structure EnergyAnalysis where
  energy_level : String
  confidence : ℝ
  class_id : ℕ
  probabilities : List ℝ

def energyLevels : List String := ["Chill", "Groove", "Club"]

/-- The fixed analysis the catch block returns. -/
def fallbackAnalysis : EnergyAnalysis :=
  { energy_level := "Groove"
    confidence := 0.5
    class_id := 1
    probabilities := [0.33, 0.34, 0.33] }

/-- One threshold rule: the weight goes to Chill below `t1`, to Groove
below `t2`, otherwise to Club. -/
noncomputable def bump (x t1 t2 w : ℝ) : ℝ × ℝ × ℝ :=
  if x < t1 then (w, 0, 0) else if x < t2 then (0, w, 0) else (0, 0, w)

/-- `classifyWithTrainedModel` (the rule-based rewrite): normalize the four
features, accumulate threshold scores, normalize to probabilities, and
report the first index attaining the maximal probability. -/
noncomputable def classifyWithTrainedModel (rms tempo peakAmp brightness : ℝ) :
    EnergyAnalysis :=
  let normRms := min 1 (rms * 3)
  let normTempo := max 0 (min 1 ((tempo - 60) / 120))
  let normPeak := min 1 (peakAmp * 1.5)
  let normBright := max 0 (min 1 ((brightness - 1000) / 6000))
  let c1 := bump normRms 0.3 0.6 0.4
  let c2 := bump normTempo 0.3 0.7 0.3
  let c3 := bump normPeak 0.4 0.7 0.2
  let c4 := bump normBright 0.3 0.7 0.1
  let chillScore := c1.1 + c2.1 + c3.1 + c4.1
  let grooveScore := c1.2.1 + c2.2.1 + c3.2.1 + c4.2.1
  let clubScore := c1.2.2 + c2.2.2 + c3.2.2 + c4.2.2
  let totalScore := chillScore + grooveScore + clubScore
  let p0 := chillScore / totalScore
  let p1 := grooveScore / totalScore
  let p2 := clubScore / totalScore
  let maxP := max p0 (max p1 p2)
  let bestIdx := if p0 = maxP then 0 else if p1 = maxP then 1 else 2
  { energy_level := energyLevels.getD bestIdx ""
    confidence := [p0, p1, p2].getD bestIdx 0
    class_id := bestIdx
    probabilities := [p0, p1, p2] }

/-- The sampled indices of the decimating loop
`for (i = 0; i < len && count < sampleSize; i += step)`. -/
def sampleIdx (len : ℕ) : List ℕ :=
  let sampleSize := min 10000 len
  let step := max 1 (len / sampleSize)
  (List.range (min sampleSize ((len + step - 1) / step))).map fun k => k * step

/-- `analyzeEnergy`: invalid input (no frames, no channels, or empty
channel data) is caught and answered with `fallbackAnalysis`; otherwise the
sampled RMS and peak drive the rule-based classifier (tempo is 80/120/150
by RMS band, brightness is `peak * 3000 + 1000`). -/
noncomputable def analyzeEnergy (b : AudioBuffer) : EnergyAnalysis :=
  if b.len = 0 ∨ b.numberOfChannels = 0 ∨ (b.getData 0).length = 0 then
    fallbackAnalysis
  else
    let data := b.getData 0
    let idx := sampleIdx data.length
    let sumSquares : ℚ := (idx.map fun i => (data.getD i 0) ^ 2).sum
    let peakAmp : ℚ := idx.foldl (fun p i => max p |data.getD i 0|) 0
    let rms : ℝ := Real.sqrt (((sumSquares / (idx.length : ℚ) : ℚ) : ℝ))
    let tempo : ℝ := if rms < 0.1 then 80 else if rms < 0.3 then 120 else 150
    let brightness : ℚ := peakAmp * 3000 + 1000
    classifyWithTrainedModel rms tempo ((peakAmp : ℚ) : ℝ) ((brightness : ℚ) : ℝ)

end EnergyDetector3

/-- C2: `analyzeEnergy` never raises on malformed input: with zero
channels or zero-length sample data it returns the documented neutral
fallback — the middle category "Groove" (class 1 of 3), confidence 0.5,
near-uniform probabilities `[0.33, 0.34, 0.33]`. -/
theorem C2_fallback (b : AudioBuffer)
    (h : b.numberOfChannels = 0 ∨ b.len = 0 ∨ (b.getData 0).length = 0) :
    EnergyDetector3.analyzeEnergy b = EnergyDetector3.fallbackAnalysis ∧
      (EnergyDetector3.analyzeEnergy b).energy_level = "Groove" ∧
      (EnergyDetector3.analyzeEnergy b).confidence = 0.5 ∧
      (EnergyDetector3.analyzeEnergy b).probabilities = [0.33, 0.34, 0.33] := by
  have heq : EnergyDetector3.analyzeEnergy b = EnergyDetector3.fallbackAnalysis := by
    rw [EnergyDetector3.analyzeEnergy, if_pos (by tauto)]
  exact ⟨heq, by rw [heq]; rfl, by rw [heq]; rfl, by rw [heq]; rfl⟩

/-- C2 witness: the fallback at a concrete zero-channel buffer. -/
theorem C2_witness :
    EnergyDetector3.analyzeEnergy ⟨[], 0, 44100⟩ =
      EnergyDetector3.fallbackAnalysis :=
  (C2_fallback ⟨[], 0, 44100⟩ (Or.inl rfl)).1

/-- C1 witness: the amended statement at the all-zero 25-slot vector,
whose total score is `1.3`. -/
theorem C1_witness :
    EnergyDetector5.totalScore (List.replicate 25 (0 : ℚ)) ≠ 0 ∧
      (EnergyDetector5.predictEnergyLevel
        (List.replicate 25 (0 : ℚ))).probabilities.sum = 1 := by
  have h : EnergyDetector5.totalScore (List.replicate 25 (0 : ℚ)) ≠ 0 := by
    norm_num [EnergyDetector5.totalScore, EnergyDetector5.scoresList, min_def, abs]
  exact ⟨h, (C1_amended _ h).1⟩

/-- C10 witness: exact reconstruction on a concrete stereo buffer. -/
theorem C10_witness :
    (((AudioProcessor.extractVocals ⟨[[(1 : ℚ)], [(1 : ℚ)/3]], 1, 10⟩).channels.getD
            0 []).getD 0 0 +
        ((AudioProcessor.extractBeats ⟨[[(1 : ℚ)], [(1 : ℚ)/3]], 1, 10⟩).channels.getD
            0 []).getD 0 0) = 1 := by
  have := (C10_stem_reconstruction ⟨[[(1 : ℚ)], [(1 : ℚ)/3]], 1, 10⟩).1
    (by decide) 0 (by decide) 0 (by decide)
  simpa [AudioBuffer.getData] using this
